import Mathlib

/-!
Verification development for the ProxyCloud-Desktop local proxy
orchestration core.  The Python sources under `src/` are shallowly
embedded: dynamic Python dictionaries become association lists over a
`Json` value type, fallible paths become `Option`/`Except`, and the
stateful controllers become explicit state-passing functions.  Numeric
latency values (Python floats) are modelled by rationals, which is
faithful for every order-theoretic property considered here.
-/

namespace ProxyCloud

/-- A JSON-like dynamic value, modelling the Python values that flow
through the repository's configuration dictionaries.  Numbers are
modelled by rationals (integers parse to integral rationals; latency
floats only ever participate in order comparisons). -/
inductive Json where
  | null : Json
  | bool : Bool → Json
  | num  : ℚ → Json
  | str  : String → Json
  | arr  : List Json → Json
  | obj  : List (String × Json) → Json

/-- Python dictionaries with string keys, as ordered association lists
(insertion order, later duplicates shadow earlier ones as in `dict`). -/
abbrev Dict := List (String × Json)

/-- `d.get(k)` on a Python dict: the last binding of `k`, if any. -/
def Dict.get (d : Dict) (k : String) : Option Json :=
  List.lookup k d.reverse

/-- `d.get(k, v)` on a Python dict. -/
def Dict.getD (d : Dict) (k : String) (v : Json) : Json :=
  (Dict.get d k).getD v

/-- `k in d` on a Python dict. -/
def Dict.hasKey (d : Dict) (k : String) : Bool :=
  (Dict.get d k).isSome

/-- `d[k] = v` on a Python dict: replace the binding if the key is
present (keeping its position), else append. -/
def Dict.set (d : Dict) (k : String) (v : Json) : Dict :=
  if Dict.hasKey d k then
    d.map (fun p => if p.1 = k then (k, v) else p)
  else
    d ++ [(k, v)]

/-- Key lookup on a `Json` object (`j.get(k)` when `j` is a dict,
`none` otherwise). -/
def Json.get (j : Json) (k : String) : Option Json :=
  match j with
  | .obj kvs => Dict.get kvs k
  | _ => none

/-- `j.get(k, v)` on a `Json` object. -/
def Json.getD (j : Json) (k : String) (v : Json) : Json :=
  (Json.get j k).getD v

/-- `k in j` for a `Json` object. -/
def Json.hasKey (j : Json) (k : String) : Bool :=
  (Json.get j k).isSome

/-- `j[k] = v` on a `Json` object (non-objects are left unchanged;
the sources only ever assign into dicts). -/
def Json.set (j : Json) (k : String) (v : Json) : Json :=
  match j with
  | .obj kvs => .obj (Dict.set kvs k v)
  | _ => j

/-- Python truthiness for the values that occur in the sources. -/
def Json.truthy : Json → Bool
  | .null => false
  | .bool b => b
  | .num q => q != 0
  | .str s => s != ""
  | .arr l => !l.isEmpty
  | .obj l => !l.isEmpty

/-- The Python comparison `j == "s"` of a dynamic value against a string
literal (used all over the sources for dispatching on `type`, `network`,
`security`, ...): true exactly for the equal string value. -/
def Json.isStr (j : Json) (s : String) : Bool :=
  match j with
  | .str t => t == s
  | _ => false

/-! ### Python string helpers -/

/-- Python `s.startswith(pre)`, as a structural character-list check. -/
def pyStartsWith (s pre : String) : Bool :=
  s.data.take pre.data.length == pre.data

/-- `s.split(c, 1)`: split at the first occurrence of `c`;
`none` when `c` does not occur. -/
def splitOnce (c : Char) : List Char → Option (List Char × List Char)
  | [] => none
  | x :: xs =>
    if x = c then some ([], xs)
    else (splitOnce c xs).map (fun p => (x :: p.1, p.2))

/-- `s.split(c, 1)` on strings. -/
def strSplitOnce (s : String) (c : Char) : Option (String × String) :=
  (ProxyCloud.splitOnce c s.data).map (fun p => (String.mk p.1, String.mk p.2))

/-- `s.rstrip('=')`. -/
def rstripEq (l : List Char) : List Char :=
  (l.reverse.dropWhile (· = '=')).reverse

/-- The whitespace stripped by Python's `int(str)`. -/
def pySpace (c : Char) : Bool :=
  c == ' ' || c == '\t' || c == '\n' || c == '\r' || c == '\x0b' || c == '\x0c'

/-- Numeric value of a decimal digit string. -/
def digitsVal (l : List Char) : Nat :=
  l.foldl (fun acc c => acc * 10 + (c.toNat - 48)) 0

/-- Python `int(s)` on a string: strip whitespace, optional sign, then a
non-empty run of decimal digits; anything else raises `ValueError`,
modelled as `none`.  (Underscore digit grouping is not modelled; no
input considered here uses it.) -/
def pyIntOfString (s : String) : Option Int :=
  let t := ((s.data.dropWhile pySpace).reverse.dropWhile pySpace).reverse
  match t with
  | [] => none
  | c :: rest =>
    let signed : Bool × List Char :=
      if c = '-' then (true, rest) else if c = '+' then (false, rest) else (false, t)
    if signed.2 ≠ [] ∧ signed.2.all (·.isDigit) then
      some (if signed.1 then -(digitsVal signed.2 : Int) else (digitsVal signed.2 : Int))
    else none

/-- Python `int(x)` on a dynamic value: integers stay, strings are
parsed, booleans become 0/1, anything else raises (`none`).  Rational
`num` values are truncated toward zero as `int(float)` does. -/
def pyInt : Json → Option Int
  | .num q => some (if 0 ≤ q then ⌊q⌋ else ⌈q⌉)
  | .str s => pyIntOfString s
  | .bool b => some (if b then 1 else 0)
  | _ => none

/-! ### Base64 (`base64.urlsafe_b64decode`) -/

/-- Value of one base64 character, with the URL-safe translation
`- → +`, `_ → /` already applied. -/
def b64CharVal (c : Char) : Option Nat :=
  if 'A' ≤ c ∧ c ≤ 'Z' then some (c.toNat - 65)
  else if 'a' ≤ c ∧ c ≤ 'z' then some (c.toNat - 97 + 26)
  else if '0' ≤ c ∧ c ≤ '9' then some (c.toNat - 48 + 52)
  else if c = '+' ∨ c = '-' then some 62
  else if c = '/' ∨ c = '_' then some 63
  else none

/-- Reassemble decoded 6-bit groups into bytes (groups of 4 → 3 bytes,
a tail of 2 → 1 byte, of 3 → 2 bytes). -/
def b64Bytes : List Nat → List Nat
  | a :: b :: c :: d :: rest =>
    (a * 4 + b / 16) :: ((b % 16) * 16 + c / 4) :: ((c % 4) * 64 + d) :: b64Bytes rest
  | [a, b] => [a * 4 + b / 16]
  | [a, b, c] => [a * 4 + b / 16, (b % 16) * 16 + c / 4]
  | _ => []

/-- Python `base64.urlsafe_b64decode`: translate the URL-safe alphabet,
discard characters outside the alphabet (`validate=False`), then require
the kept length (data plus `=` padding) to be a multiple of 4 and the
data length not to be `1 (mod 4)`; on success produce the byte string.
Failures (`binascii.Error`) are `none`. -/
def urlsafeB64Decode (s : String) : Option (List Nat) :=
  let kept := s.data.filter (fun c => (b64CharVal c).isSome || c == '=')
  let dat := kept.filter (fun c => c ≠ '=')
  if kept.length % 4 ≠ 0 then none
  else if dat.length % 4 = 1 then none
  else (dat.mapM b64CharVal).map b64Bytes

/-! ### UTF-8 (`bytes.decode('utf-8')`) -/

/-- Continuation byte test. -/
def utf8Cont (b : Nat) : Bool := 0x80 ≤ b && b ≤ 0xBF

/-- Strict UTF-8 decoding of a byte string, as Python's
`bytes.decode('utf-8')`: rejects overlong encodings, surrogates and
out-of-range code points (`UnicodeDecodeError` is `none`). -/
def utf8Decode : List Nat → Option (List Char)
  | [] => some []
  | b :: rest =>
    if b ≤ 0x7F then
      (utf8Decode rest).map (fun cs => Char.ofNat b :: cs)
    else if 0xC2 ≤ b ∧ b ≤ 0xDF then
      match rest with
      | c1 :: rest2 =>
        if utf8Cont c1 then
          (utf8Decode rest2).map (fun cs =>
            Char.ofNat ((b - 0xC0) * 0x40 + (c1 - 0x80)) :: cs)
        else none
      | [] => none
    else if 0xE0 ≤ b ∧ b ≤ 0xEF then
      match rest with
      | c1 :: c2 :: rest3 =>
        if (if b = 0xE0 then decide (0xA0 ≤ c1) && decide (c1 ≤ 0xBF)
            else if b = 0xED then decide (0x80 ≤ c1) && decide (c1 ≤ 0x9F)
            else utf8Cont c1) && utf8Cont c2 then
          (utf8Decode rest3).map (fun cs =>
            Char.ofNat ((b - 0xE0) * 0x1000 + (c1 - 0x80) * 0x40 + (c2 - 0x80)) :: cs)
        else none
      | _ => none
    else if 0xF0 ≤ b ∧ b ≤ 0xF4 then
      match rest with
      | c1 :: c2 :: c3 :: rest4 =>
        if (if b = 0xF0 then decide (0x90 ≤ c1) && decide (c1 ≤ 0xBF)
            else if b = 0xF4 then decide (0x80 ≤ c1) && decide (c1 ≤ 0x8F)
            else utf8Cont c1) && utf8Cont c2 && utf8Cont c3 then
          (utf8Decode rest4).map (fun cs =>
            Char.ofNat ((b - 0xF0) * 0x40000 + (c1 - 0x80) * 0x1000
              + (c2 - 0x80) * 0x40 + (c3 - 0x80)) :: cs)
        else none
      | _ => none
    else none

/-- Base64-decode then UTF-8-decode, the composite used by all three
parsers (`base64.urlsafe_b64decode(x).decode('utf-8')`). -/
def b64ToString (s : String) : Option String :=
  (urlsafeB64Decode s).bind (fun bs => (utf8Decode bs).map String.mk)

/-! ### Percent decoding (`urllib.parse.unquote` / `unquote_plus`) -/

/-- Lenient UTF-8 decoding (`errors='replace'`): invalid sequences
produce U+FFFD, resynchronising one byte at a time. -/
def utf8DecodeReplace (l : List Nat) : List Char :=
  match utf8Decode l with
  | some cs => cs
  | none =>
    match l with
    | [] => []
    | _ :: rest => '�' :: utf8DecodeReplace rest
termination_by l.length
decreasing_by simp

/-- Hex digit value. -/
def hexVal (c : Char) : Option Nat :=
  if '0' ≤ c ∧ c ≤ '9' then some (c.toNat - 48)
  else if 'a' ≤ c ∧ c ≤ 'f' then some (c.toNat - 97 + 10)
  else if 'A' ≤ c ∧ c ≤ 'F' then some (c.toNat - 65 + 10)
  else none

/-- Consume a maximal run of `%XX` escapes, returning the bytes and the
rest of the input. -/
def percentRun : List Char → List Nat × List Char
  | '%' :: h1 :: h2 :: rest =>
    match hexVal h1, hexVal h2 with
    | some a, some b =>
      let p := percentRun rest
      ((a * 16 + b) :: p.1, p.2)
    | _, _ => ([], '%' :: h1 :: h2 :: rest)
  | l => ([], l)

theorem percentRun_length (l : List Char) :
    (percentRun l).2.length + 3 * (percentRun l).1.length = l.length := by
  induction l using percentRun.induct with
  | case1 h1 h2 rest a b ha hb ih =>
    simp only [percentRun, ha, hb]
    simpa using by omega
  | case2 h1 h2 rest hnab =>
    cases ha : hexVal h1 with
    | none => simp [percentRun, ha]
    | some a =>
      cases hb : hexVal h2 with
      | none => simp [percentRun, ha, hb]
      | some b => exact (hnab a b ha hb).elim
  | case3 l hl => simp [percentRun]

/-- `urllib.parse.unquote`: each maximal run of `%XX` escapes is decoded
as UTF-8 with replacement; other characters pass through, and malformed
`%` sequences are left as-is. -/
def pyUnquoteAux (l : List Char) : List Char :=
  match hp : percentRun l with
  | (b :: bs, r) => utf8DecodeReplace (b :: bs) ++ pyUnquoteAux r
  | ([], _) =>
    match l with
    | [] => []
    | c :: rest => c :: pyUnquoteAux rest
termination_by l.length
decreasing_by
  · have hlen := percentRun_length l
    rw [hp] at hlen
    simp at hlen ⊢
    omega
  · simp

def pyUnquote (s : String) : String :=
  String.mk (pyUnquoteAux s.data)

/-- `urllib.parse.unquote_plus`: `+` becomes a space, then unquote. -/
def pyUnquotePlus (s : String) : String :=
  String.mk (pyUnquoteAux (s.data.map (fun c => if c = '+' then ' ' else c)))

/-- `urllib.parse.parse_qsl(qs)` with default arguments: split on `&`,
drop empty fields, split each field at the first `=` (fields without
`=` or with an empty value are dropped since blank values are not
kept), and percent-plus-decode names and values. -/
def parseQsl (s : String) : List (String × String) :=
  (s.splitOn "&").filterMap (fun nv =>
    if nv = "" then none
    else match strSplitOnce nv '=' with
      | none => none
      | some (n, v) => if v = "" then none else some (pyUnquotePlus n, pyUnquotePlus v))

/-- `dict(pairs).get(k)`: last binding wins. -/
def qslGet (ps : List (String × String)) (k : String) : Option String :=
  List.lookup k ps.reverse

/-- `dict(pairs).get(k, d)`. -/
def qslGetD (ps : List (String × String)) (k d : String) : String :=
  (qslGet ps k).getD d

/-! ### JSON parsing (`json.loads`)

Modelled from Python's `json.loads` on the fragment the repository
feeds it: objects, arrays, strings with the standard escapes (including
non-surrogate `\uXXXX`), integer numbers, `true`/`false`/`null`.
Fractional and exponent number forms are not modelled (the vmess fields
are integers or strings); a `JSONDecodeError` is `none`. -/

/-- JSON whitespace. -/
def jSkipWs (l : List Char) : List Char :=
  l.dropWhile (fun c => c == ' ' || c == '\t' || c == '\n' || c == '\r')

/-- Parse the body of a JSON string after the opening quote, returning
the contents and the remainder after the closing quote.  Unescaped
control characters are rejected (`strict=True`). -/
def jStr : List Char → Option (List Char × List Char)
  | [] => none
  | '"' :: rest => some ([], rest)
  | '\\' :: e :: rest =>
    match e with
    | '"' => (jStr rest).map (fun p => ('"' :: p.1, p.2))
    | '\\' => (jStr rest).map (fun p => ('\\' :: p.1, p.2))
    | '/' => (jStr rest).map (fun p => ('/' :: p.1, p.2))
    | 'b' => (jStr rest).map (fun p => ('\x08' :: p.1, p.2))
    | 'f' => (jStr rest).map (fun p => ('\x0c' :: p.1, p.2))
    | 'n' => (jStr rest).map (fun p => ('\n' :: p.1, p.2))
    | 'r' => (jStr rest).map (fun p => ('\r' :: p.1, p.2))
    | 't' => (jStr rest).map (fun p => ('\t' :: p.1, p.2))
    | 'u' =>
      match rest with
      | h1 :: h2 :: h3 :: h4 :: rest2 =>
        match hexVal h1, hexVal h2, hexVal h3, hexVal h4 with
        | some a, some b, some c, some d =>
          let v := ((a * 16 + b) * 16 + c) * 16 + d
          if 0xD800 ≤ v ∧ v ≤ 0xDFFF then none
          else (jStr rest2).map (fun p => (Char.ofNat v :: p.1, p.2))
        | _, _, _, _ => none
      | _ => none
    | _ => none
  | c :: rest =>
    if c.toNat < 0x20 then none
    else (jStr rest).map (fun p => (c :: p.1, p.2))
termination_by l => l.length

/-- Parse a JSON unsigned integer (no leading zeros, no fraction or
exponent in the modelled fragment). -/
def jNat (cs : List Char) : Option (Nat × List Char) :=
  let ds := cs.takeWhile (·.isDigit)
  let rest := cs.dropWhile (·.isDigit)
  if ds = [] then none
  else if ds.length > 1 ∧ ds.head? = some '0' then none
  else match rest with
    | '.' :: _ => none
    | 'e' :: _ => none
    | 'E' :: _ => none
    | _ => some (digitsVal ds, rest)

/-- Parse a JSON number. -/
def jNum (cs : List Char) : Option (Json × List Char) :=
  match cs with
  | '-' :: rest => (jNat rest).map (fun p => (.num (-(p.1 : ℚ)), p.2))
  | _ => (jNat cs).map (fun p => (.num (p.1 : ℚ), p.2))

mutual

/-- Parse one JSON value, with a structural fuel bound. -/
def jValue : Nat → List Char → Option (Json × List Char)
  | 0, _ => none
  | f + 1, cs0 =>
    match jSkipWs cs0 with
    | '{' :: rest =>
      match jSkipWs rest with
      | '}' :: r2 => some (.obj [], r2)
      | r1 => (jMembers f r1).map (fun p => (.obj p.1, p.2))
    | '[' :: rest =>
      match jSkipWs rest with
      | ']' :: r2 => some (.arr [], r2)
      | r1 => (jElems f r1).map (fun p => (.arr p.1, p.2))
    | '"' :: rest => (jStr rest).map (fun p => (.str (String.mk p.1), p.2))
    | 't' :: 'r' :: 'u' :: 'e' :: rest => some (.bool true, rest)
    | 'f' :: 'a' :: 'l' :: 's' :: 'e' :: rest => some (.bool false, rest)
    | 'n' :: 'u' :: 'l' :: 'l' :: rest => some (.null, rest)
    | cs => jNum cs

/-- Parse the members of a JSON object after the opening brace. -/
def jMembers : Nat → List Char → Option (List (String × Json) × List Char)
  | 0, _ => none
  | f + 1, cs =>
    match jSkipWs cs with
    | '"' :: rest =>
      match jStr rest with
      | none => none
      | some (k, r1) =>
        match jSkipWs r1 with
        | ':' :: r2 =>
          match jValue f r2 with
          | none => none
          | some (v, r3) =>
            match jSkipWs r3 with
            | ',' :: r4 => (jMembers f r4).map (fun p => ((String.mk k, v) :: p.1, p.2))
            | '}' :: r4 => some ([(String.mk k, v)], r4)
            | _ => none
        | _ => none
    | _ => none

/-- Parse the elements of a JSON array after the opening bracket. -/
def jElems : Nat → List Char → Option (List Json × List Char)
  | 0, _ => none
  | f + 1, cs =>
    match jValue (f + 1) cs with
    | none => none
    | some (v, r1) =>
      match jSkipWs r1 with
      | ',' :: r2 => (jElems f r2).map (fun p => (v :: p.1, p.2))
      | ']' :: r2 => some ([v], r2)
      | _ => none

end

/-- Python `json.loads` (modelled fragment): parse one value and require
only whitespace to remain. -/
def parseJson (s : String) : Option Json :=
  match jValue (s.length + 2) s.data with
  | some (v, rest) => if (jSkipWs rest).isEmpty then some v else none
  | none => none

/-! ### ProfileDecoder (`src/utils/proxy_parser.py`)

Each parser returns `None` in the source at several distinct sites
(mostly after printing a diagnostic).  The embedding refines the `None`
results into an `Except` whose error constructors name those sites, and
`printedMessage` records the diagnostic printed at each site (`none`
for the sites that return silently).  `parse_ss_url` etc. below project
back to the source's `Optional` signature. -/

/-- One failure exit of the link parsers; each constructor corresponds
to one `return None` site in `src/utils/proxy_parser.py`. -/
inductive DecodeError where
  | wrongScheme            -- scheme prefix check failed (silent `return None`)
  | ssUserInfoB64          -- line 48: base64/utf-8 failure on user info (deliberately silent)
  | ssMissingColonMethodPass   -- lines 52 / 82
  | ssMissingColonHostPort     -- lines 58 / 88
  | ssLegacyB64            -- line 93: exception decoding the legacy payload
  | ssMissingAtDecoded     -- line 76
  | ssBadPort              -- `int(port)` raised; caught by the handler at line 104
  | vmessB64               -- line 131
  | vmessJson              -- line 138
  | vmessBadField          -- exception building the result; caught at line 172
  | vlessError             -- any exception in `parse_vless_url`; caught at line 233
deriving DecidableEq, Repr

/-- The diagnostic printed at each failure site, `none` for the silent
sites (the static prefix of the `print` call; `{e}` parts elided). -/
def printedMessage : DecodeError → Option String
  | .wrongScheme => none
  | .ssUserInfoB64 => none
  | .ssMissingColonMethodPass => some "Error parsing SS URL: missing : separator in method:password"
  | .ssMissingColonHostPort => some "Error parsing SS URL: missing : separator in host:port"
  | .ssLegacyB64 => some "Error parsing SS URL: "
  | .ssMissingAtDecoded => some "Error parsing SS URL: missing @ separator in decoded string"
  | .ssBadPort => some "Error parsing SS URL: "
  | .vmessB64 => some "Error decoding VMess base64: "
  | .vmessJson => some "Error parsing VMess JSON: "
  | .vmessBadField => some "Error parsing VMess URL: "
  | .vlessError => some "Error parsing VLESS URL: "

/-- The repadding applied to the modern-form shadowsocks user info and
to the vmess payload (source lines 38–43 and 119–125): strip existing
`'='` padding, then append `(4 - len % 4) % 4` padding characters. -/
def repadStripped (l : List Char) : List Char :=
  let t := rstripEq l
  t ++ List.replicate ((4 - t.length % 4) % 4) '='

/-- The repadding applied to the legacy shadowsocks payload (source
lines 68–71): `padding = 4 - len % 4`, appended only when `< 4`. -/
def repadLegacy (l : List Char) : List Char :=
  let p := 4 - l.length % 4
  if p < 4 then l ++ List.replicate p '=' else l

/-- Build the shadowsocks result dict (source lines 96–103); `int(port)`
may raise, caught by the handler at line 104. -/
def mkSsDict (method password host portStr : List Char) (tag : String) :
    Except DecodeError Dict :=
  match pyIntOfString (String.mk portStr) with
  | none => .error .ssBadPort
  | some port =>
    .ok [("type", .str "ss"), ("method", .str (String.mk method)),
         ("password", .str (String.mk password)), ("server", .str (String.mk host)),
         ("port", .num (port : ℚ)), ("tag", .str tag)]

/-- `parse_ss_url` with its failure sites made explicit. -/
def parse_ss_urlE (url : String) : Except DecodeError Dict :=
  if ¬ pyStartsWith url "ss://" then .error .wrongScheme
  else
    let u0 := url.data.drop 5
    let split := match splitOnce '#' u0 with
      | some p => (p.1, pyUnquote (String.mk p.2))
      | none => (u0, "")
    let body := split.1
    let tag := split.2
    match splitOnce '@' body with
    | some (userInfoRaw, serverInfo) =>
      -- New format: ss://base64(method:password)@host:port
      let step : Except DecodeError (List Char) :=
        if userInfoRaw.contains ':' then .ok userInfoRaw
        else
          match b64ToString (String.mk (repadStripped userInfoRaw)) with
          | some s => .ok s.data
          | none => .error .ssUserInfoB64
      match step with
      | .error e => .error e
      | .ok userInfo =>
        match splitOnce ':' userInfo with
        | none => .error .ssMissingColonMethodPass
        | some (method, password) =>
          match splitOnce ':' serverInfo with
          | none => .error .ssMissingColonHostPort
          | some (host, portStr) => mkSsDict method password host portStr tag
    | none =>
      -- Legacy format: ss://base64(method:password@host:port)
      match b64ToString (String.mk (repadLegacy body)) with
      | none => .error .ssLegacyB64
      | some decoded =>
        match splitOnce '@' decoded.data with
        | none => .error .ssMissingAtDecoded
        | some (methodPass, hostPort) =>
          match splitOnce ':' methodPass with
          | none => .error .ssMissingColonMethodPass
          | some (method, password) =>
            match splitOnce ':' hostPort with
            | none => .error .ssMissingColonHostPort
            | some (host, portStr) => mkSsDict method password host portStr tag

/-- `parse_vmess_url` with its failure sites made explicit. -/
def parse_vmess_urlE (url : String) : Except DecodeError Dict :=
  if ¬ pyStartsWith url "vmess://" then .error .wrongScheme
  else
    let b64s := url.data.drop 8
    match b64ToString (String.mk (repadStripped b64s)) with
    | none => .error .vmessB64
    | some decoded =>
      match parseJson decoded with
      | none => .error .vmessJson
      | some config =>
        match config with
        | .obj kvs =>
          match pyInt (Dict.getD kvs "port" (.num 0)), pyInt (Dict.getD kvs "aid" (.num 0)) with
          | some port, some aid =>
            let network := Dict.getD kvs "net" (.str "tcp")
            let base : Dict :=
              [("type", .str "vmess"), ("server", Dict.getD kvs "add" (.str "")),
               ("port", .num (port : ℚ)), ("uuid", Dict.getD kvs "id" (.str "")),
               ("alterId", .num (aid : ℚ)), ("security", Dict.getD kvs "scy" (.str "auto")),
               ("network", network), ("tag", Dict.getD kvs "ps" (.str ""))]
            let withNet :=
              if network.isStr "ws" then
                (base.set "ws-path" (Dict.getD kvs "path" (.str ""))).set
                  "ws-host" (Dict.getD kvs "host" (.str ""))
              else if network.isStr "h2" then
                (base.set "h2-path" (Dict.getD kvs "path" (.str ""))).set
                  "h2-host" (Dict.getD kvs "host" (.str ""))
              else if network.isStr "quic" then
                (base.set "quic-security" (Dict.getD kvs "quic-security" (.str ""))).set
                  "quic-key" (Dict.getD kvs "quic-key" (.str ""))
              else base
            let withTls :=
              if (Dict.getD kvs "tls" (.str "")).isStr "tls" then
                (withNet.set "tls" (.bool true)).set "sni" (Dict.getD kvs "sni" (.str ""))
              else withNet.set "tls" (.bool false)
            .ok withTls
          | _, _ => .error .vmessBadField
        | _ => .error .vmessBadField

/-- `parse_vless_url` with its failure sites made explicit (the source
wraps the whole body in one `try`, so every failure is the single
`vlessError` site). -/
def parse_vless_urlE (url : String) : Except DecodeError Dict :=
  if ¬ pyStartsWith url "vless://" then .error .wrongScheme
  else
    let u0 := url.data.drop 8
    let split := match splitOnce '#' u0 with
      | some p => (p.1, pyUnquote (String.mk p.2))
      | none => (u0, "")
    let body := split.1
    let tag := split.2
    match splitOnce '@' body with
    | none => .error .vlessError
    | some (uuidPart, serverPart) =>
      let qsplit := match splitOnce '?' serverPart with
        | some p => p
        | none => (serverPart, [])
      match splitOnce ':' qsplit.1 with
      | none => .error .vlessError
      | some (host, portStr) =>
        match pyIntOfString (String.mk portStr) with
        | none => .error .vlessError
        | some port =>
          let params := parseQsl (String.mk qsplit.2)
          let base : Dict :=
            [("type", .str "vless"), ("server", .str (String.mk host)),
             ("port", .num (port : ℚ)), ("uuid", .str (String.mk uuidPart)),
             ("tag", .str tag), ("encryption", .str (qslGetD params "encryption" "none"))]
          let withSec :=
            match qslGet params "security" with
            | none => base
            | some sec =>
              let b1 := base.set "security" (.str sec)
              if sec = "tls" then
                ((b1.set "sni" (.str (qslGetD params "sni" ""))).set
                  "alpn" (.str (qslGetD params "alpn" ""))).set
                  "fp" (.str (qslGetD params "fp" ""))
              else b1
          let withNet :=
            match qslGet params "type" with
            | none => withSec
            | some ty =>
              let b2 := withSec.set "network" (.str ty)
              if ty = "ws" then
                (b2.set "ws-path" (.str (qslGetD params "path" ""))).set
                  "ws-host" (.str (qslGetD params "host" ""))
              else if ty = "h2" then
                (b2.set "h2-path" (.str (qslGetD params "path" ""))).set
                  "h2-host" (.str (qslGetD params "host" ""))
              else if ty = "grpc" then
                b2.set "grpc-service-name" (.str (qslGetD params "serviceName" ""))
              else b2
          .ok withNet

/-- `parse_proxy_url` dispatch with explicit failure sites. -/
def parse_proxy_urlE (url : String) : Except DecodeError Dict :=
  if pyStartsWith url "ss://" then parse_ss_urlE url
  else if pyStartsWith url "vmess://" then parse_vmess_urlE url
  else if pyStartsWith url "vless://" then parse_vless_urlE url
  else .error .wrongScheme

/-- The source's `parse_ss_url : str -> Optional[dict]`. -/
def parse_ss_url (url : String) : Option Dict := (parse_ss_urlE url).toOption

/-- The source's `parse_vmess_url : str -> Optional[dict]`. -/
def parse_vmess_url (url : String) : Option Dict := (parse_vmess_urlE url).toOption

/-- The source's `parse_vless_url : str -> Optional[dict]`. -/
def parse_vless_url (url : String) : Option Dict := (parse_vless_urlE url).toOption

/-- The source's `parse_proxy_url : str -> Optional[dict]`. -/
def parse_proxy_url (url : String) : Option Dict := (parse_proxy_urlE url).toOption

/-! ### ConfigSynthesizer (`src/utils/xray_config.py`)

`generate_xray_config` itself loads `base.json` from disk (lines 10–18)
before synthesizing.  The embedding takes the parsed content of that
file as the explicit `base` argument (the empty dict when the file is
missing or unreadable — exactly what the source's `base_config = {}`
fallback produces); everything after the load is pure.  Required
profile fields are read with Python's raising `[]` indexing, so the
embedding is `Option`-valued (`none` models the uncaught `KeyError`).
Base-template outbound entries are assumed to be JSON objects, as a
`base.json` accepted by the engine must provide. -/

/-- One entry of the generated `outbounds` list, with the exact keys
`generate_xray_config` assigns. -/
structure Outbound where
  tag : String
  protocol : Option String := none
  settings : Json := .obj []
  streamSettings : Option Json := none
  mux : Option Json := none

/-- The generated configuration document with its fixed top-level
sections. -/
structure XrayConfig where
  log : Json
  inbounds : List Json
  outbounds : List Outbound
  routing : Json
  dns : Option Json

/-- The fixed `log` section (source lines 22–26). -/
def logSection : Json :=
  .obj [("loglevel", .str "warning"), ("access", .str "access.log"),
        ("error", .str "error.log")]

/-- The default `routing` section (source lines 29–38). -/
def defaultRouting : Json :=
  .obj [("domainStrategy", .str "AsIs"),
        ("rules", .arr [.obj [("type", .str "field"),
          ("ip", .arr [.str "geoip:private"]), ("outboundTag", .str "direct")]])]

/-- The `routing` section after applying base-template rules
(source lines 45–47). -/
def routingSection (base : Dict) : Json :=
  match Dict.get base "routing" with
  | some r =>
    match r.get "rules" with
    | some rules => defaultRouting.set "rules" rules
    | none => defaultRouting
  | none => defaultRouting

/-- The TUN-mode inbound (source lines 52–69). -/
def tunInbound : Json :=
  .obj [("tag", .str "tun-in"), ("port", .num 0), ("protocol", .str "dokodemo-door"),
        ("settings", .obj [("network", .str "tcp,udp"), ("followRedirect", .bool true)]),
        ("sniffing", .obj [("enabled", .bool true),
          ("destOverride", .arr [.str "http", .str "tls"])]),
        ("streamSettings", .obj [("sockopt", .obj [("tproxy", .str "tproxy")])])]

/-- The HTTP inbound (source lines 73–86). -/
def httpInbound : Json :=
  .obj [("tag", .str "http-in"), ("port", .num 10809), ("listen", .str "127.0.0.1"),
        ("protocol", .str "http"),
        ("sniffing", .obj [("enabled", .bool true),
          ("destOverride", .arr [.str "http", .str "tls"])]),
        ("settings", .obj [("auth", .str "noauth"), ("udp", .bool true)])]

/-- The SOCKS inbound (source lines 89–102). -/
def socksInbound : Json :=
  .obj [("tag", .str "socks-in"), ("port", .num 10808), ("listen", .str "127.0.0.1"),
        ("protocol", .str "socks"),
        ("sniffing", .obj [("enabled", .bool true),
          ("destOverride", .arr [.str "http", .str "tls"])]),
        ("settings", .obj [("auth", .str "noauth"), ("udp", .bool true)])]

/-- The fixed direct outbound (source lines 293–297). -/
def directOutbound : Outbound :=
  { tag := "direct", protocol := some "freedom", settings := .obj [] }

/-- The fixed block outbound (source lines 300–304). -/
def blockOutbound : Outbound :=
  { tag := "block", protocol := some "blackhole", settings := .obj [] }

/-- First base-template outbound of the given protocol carrying
`streamSettings`, if any (source's repeated search loops). -/
def findStream (base : Dict) (proto : String) : Option Json :=
  match Dict.get base "outbounds" with
  | some (.arr obs) =>
    (obs.find? (fun ob =>
      (((ob.get "protocol")).map (fun v => v.isStr proto)).getD false
        && ob.hasKey "streamSettings")).bind (fun ob => ob.get "streamSettings")
  | _ => none

/-- First base-template outbound of the given protocol carrying `mux`,
if any. -/
def findMux (base : Dict) (proto : String) : Option Json :=
  match Dict.get base "outbounds" with
  | some (.arr obs) =>
    (obs.find? (fun ob =>
      (((ob.get "protocol")).map (fun v => v.isStr proto)).getD false
        && ob.hasKey "mux")).bind (fun ob => ob.get "mux")
  | _ => none

/-- The protocol-specific proxy outbound (source lines 107–290).
`none` models the `KeyError` a profile missing a required field would
raise. -/
def mkProxyOutbound (p base : Dict) : Option Outbound := do
  let ty ← Dict.get p "type"
  if ty.isStr "ss" then do
    let server ← Dict.get p "server"
    let port ← Dict.get p "port"
    let method ← Dict.get p "method"
    let password ← Dict.get p "password"
    pure { tag := "proxy", protocol := some "shadowsocks",
           settings := .obj [("servers", .arr [.obj [("address", server), ("port", port),
             ("method", method), ("password", password), ("level", .num 8)]])],
           streamSettings := findStream base "shadowsocks",
           mux := findMux base "shadowsocks" }
  else if ty.isStr "vmess" then do
    let server ← Dict.get p "server"
    let port ← Dict.get p "port"
    let uuid ← Dict.get p "uuid"
    let settings : Json := .obj [("vnext", .arr [.obj [("address", server), ("port", port),
      ("users", .arr [.obj [("id", uuid), ("alterId", Dict.getD p "alterId" (.num 0)),
        ("security", Dict.getD p "security" (.str "auto")), ("level", .num 8)]])]])]
    let networkType := Dict.getD p "network" (.str "tcp")
    let ss0 : Json :=
      match findStream base "vmess" with
      | some bs => if Dict.hasKey p "network" then bs.set "network" networkType else bs
      | none => .obj [("network", networkType)]
    let ss1 :=
      if (Dict.getD p "tls" (.bool false)).truthy
          || (((Dict.get p "security")).map (fun v => v.isStr "tls")).getD false then
        (ss0.set "security" (.str "tls")).set "tlsSettings"
          (.obj [("allowInsecure", .bool true),
                 ("serverName", Dict.getD p "sni" (Dict.getD p "host" server))])
      else ss0
    let ss2 :=
      if networkType.isStr "ws" then
        ss1.set "wsSettings" (.obj [("path", Dict.getD p "ws-path" (Dict.getD p "path" (.str "/"))),
          ("headers", .obj [("Host", Dict.getD p "ws-host" (Dict.getD p "host" server))])])
      else if networkType.isStr "h2" || networkType.isStr "http" then
        ss1.set "httpSettings" (.obj [("path", Dict.getD p "h2-path" (Dict.getD p "path" (.str "/"))),
          ("host", .arr [Dict.getD p "h2-host" (Dict.getD p "host" server)])])
      else ss1
    pure { tag := "proxy", protocol := some "vmess", settings := settings,
           streamSettings := some ss2, mux := findMux base "vmess" }
  else if ty.isStr "vless" then do
    let server ← Dict.get p "server"
    let port ← Dict.get p "port"
    let uuid ← Dict.get p "uuid"
    let settings : Json := .obj [("vnext", .arr [.obj [("address", server), ("port", port),
      ("users", .arr [.obj [("id", uuid),
        ("encryption", Dict.getD p "encryption" (.str "none")), ("level", .num 8)]])]])]
    let networkType := Dict.getD p "network" (.str "tcp")
    let ss0 : Json :=
      match findStream base "vless" with
      | some bs => if Dict.hasKey p "network" then bs.set "network" networkType else bs
      | none => .obj [("network", networkType)]
    let ss1 :=
      match Dict.get p "security" with
      | some sec =>
        if sec.truthy then
          let t0 := ss0.set "security" sec
          if sec.isStr "tls" then
            let tls0 : Json := .obj [("serverName", Dict.getD p "sni" server),
                                     ("allowInsecure", .bool true)]
            let tls1 :=
              match Dict.get p "alpn" with
              | some (.str a) =>
                if a ≠ "" then tls0.set "alpn" (.arr ((a.splitOn ",").map Json.str)) else tls0
              | _ => tls0
            let tls2 :=
              match Dict.get p "fp" with
              | some v => if v.truthy then tls1.set "fingerprint" v else tls1
              | none => tls1
            t0.set "tlsSettings" tls2
          else t0
        else ss0
      | none => ss0
    let ss2 :=
      if (((Dict.get p "network")).map (fun v => v.isStr "ws")).getD false then
        ss1.set "wsSettings" (.obj [("path", Dict.getD p "ws-path" (.str "/")),
          ("headers", .obj [("Host", Dict.getD p "ws-host" server)])])
      else if (((Dict.get p "network")).map (fun v => v.isStr "grpc")).getD false then
        ss1.set "grpcSettings" (.obj [("serviceName", Dict.getD p "grpc-service-name" (.str ""))])
      else ss1
    pure { tag := "proxy", protocol := some "vless", settings := settings,
           streamSettings := some ss2, mux := findMux base "vless" }
  else
    pure { tag := "proxy" }

/-- `generate_xray_config(proxy_config, tun_mode)` with the loaded
`base.json` content passed explicitly. -/
def generate_xray_config (p base : Dict) (tun_mode : Bool) : Option XrayConfig :=
  (mkProxyOutbound p base).map (fun pb =>
    { log := logSection,
      inbounds := if tun_mode then [tunInbound] else [httpInbound, socksInbound],
      outbounds := [pb, directOutbound, blockOutbound],
      routing := routingSection base,
      dns := Dict.get base "dns" })

/-! ### LatencyProber (`src/utils/ping_utils.py`)

`tcp_ping`'s network observation is abstracted as an oracle mapping the
(server value, port) pair to the measured delay in milliseconds
(`none` for an unreachable server, a timeout, or a socket error —
`tcp_ping` catches everything and returns `None`).  Profile dicts live
in a heap (`store : List Dict`), and the caller's list holds indices
into it, so that the in-place `config['delay']` mutation and the
shallow `configs.copy()` are both observable. -/

/-- Network oracle for `tcp_ping(server, int(port), timeout)`. -/
abbrev PingOracle := Json → Int → Option ℚ

/-- `measure_config_delay`: annotate one profile dict in place with its
measured `delay` (`None` on a falsy server or port, on an `int(port)`
failure — caught by the handler at line 70 — or on an unreachable
server). -/
def measure_config_delay (oracle : PingOracle) (c : Dict) : Dict :=
  let server := Dict.getD c "server" .null
  let port := Dict.getD c "port" (.num 0)
  if ¬ server.truthy ∨ ¬ port.truthy then c.set "delay" .null
  else
    match pyInt port with
    | none => c.set "delay" .null
    | some pn =>
      match oracle server pn with
      | some d => c.set "delay" (.num d)
      | none => c.set "delay" .null

/-- The slicing loop `[lst[i:i+bs] for i in range(0, len(lst), bs)]`
(the `max 1` inside only guards termination; the callers below always
pass a positive size). -/
def chunksAux (bs : Nat) : Nat → List α → List (List α)
  | _, [] => []
  | 0, _ :: _ => []
  | fuel + 1, l@(_ :: _) => l.take (max 1 bs) :: chunksAux bs fuel (l.drop (max 1 bs))

def chunks (bs : Nat) (l : List α) : List (List α) :=
  chunksAux bs l.length l

/-- The batch partition of `measure_configs_delay` (source lines
92–93): `batch_size = max(1, n // max_threads)`, then slice. -/
def mkBatches (l : List α) (maxThreads : Nat) : List (List α) :=
  chunks (max 1 (l.length / maxThreads)) l

/-- One worker thread processing its batch of profile references
sequentially (`process_batch`). -/
def processBatch (oracle : PingOracle) (store : List Dict) (batch : List Nat) : List Dict :=
  batch.foldl (fun st r => st.set r (measure_config_delay oracle (st.getD r []))) store

/-- `measure_configs_delay(configs, ..., max_threads=10)` over the
heap: the caller's reference list is shallow-copied
(`configs_copy = configs.copy()` — the same references in a new list),
split into batches, and every batch runs to completion (the `join`
loop) before the pair (returned list, updated heap) is produced.
Distinct batches touch disjoint slices of the list, so their parallel
execution is equivalent to processing the concatenation in order. -/
def measure_configs_delay (oracle : PingOracle) (refs : List Nat) (store : List Dict)
    (maxThreads : Nat := 10) : List Nat × List Dict :=
  if refs.isEmpty then ([], store)
  else
    (refs, (mkBatches refs maxThreads).foldl (processBatch oracle) store)

/-! ### Ranking (`src/main.py` lines 1113–1124) -/

/-- The caller's sort key: `float('inf')` when the stored delay is
`None` (or absent), else the delay value; modelled in `WithTop ℚ`. -/
def delayKey (d : Dict) : WithTop ℚ :=
  match Dict.get d "delay" with
  | some (.num q) => (q : WithTop ℚ)
  | _ => ⊤

/-- `items.sort(key=...)`: Python's stable ascending sort by the delay
key, modelled by the stable `List.mergeSort`. -/
def sortByDelay (items : List Dict) : List Dict :=
  items.mergeSort (fun a b => decide (delayKey a ≤ delayKey b))

/-! ### SystemProxyController (`src/utils/system_proxy.py`, Linux
strategy, lines 253–353)

The mutable OS surface (proxy environment variables plus the GNOME
`gsettings` proxy keys) is an explicit `LinuxEnv` value; the manager's
own attributes are a `ProxyMgrState`.  `gsettings` is assumed
available (when it is not, the source ignores the failure and the
environment-variable part behaves identically). -/

/-- The OS-level proxy surface touched by the Linux strategy. -/
structure LinuxEnv where
  http_proxy : Option String
  https_proxy : Option String
  all_proxy : Option String
  gnomeMode : String
  gnomeHttpHost : String
  gnomeHttpPort : Nat
  gnomeHttpsHost : String
  gnomeHttpsPort : Nat
  gnomeSocksHost : String
  gnomeSocksPort : Nat
deriving DecidableEq, Repr

/-- `self._previous_linux_settings`: environment variables saved only
when present, plus the stripped `gsettings get` output. -/
structure LinuxSnapshot where
  http_proxy : Option String
  https_proxy : Option String
  all_proxy : Option String
  gnomeMode : String
deriving DecidableEq, Repr

/-- The manager's own attributes (`__init__`, plus the snapshot slot,
absent until first saved — `hasattr` is `isSome`). -/
structure ProxyMgrState where
  http_port : Nat := 10809
  socks_port : Nat := 10808
  is_enabled : Bool := false
  prevLinux : Option LinuxSnapshot := none
deriving DecidableEq, Repr

/-- `_save_current_linux_settings` (lines 327–353). -/
def saveLinuxSettings (m : ProxyMgrState) (env : LinuxEnv) : ProxyMgrState :=
  let snap : LinuxSnapshot :=
    { http_proxy := env.http_proxy, https_proxy := env.https_proxy,
      all_proxy := env.all_proxy, gnomeMode := env.gnomeMode }
  { m with prevLinux := some snap }

/-- `_enable_linux_proxy` (lines 253–297): snapshot, then point the
environment variables and GNOME keys at the local ports. -/
def enableLinuxProxy (m : ProxyMgrState) (env : LinuxEnv) :
    ProxyMgrState × LinuxEnv × Bool :=
  let m1 := saveLinuxSettings m env
  let env1 : LinuxEnv :=
    { http_proxy := some ("http://127.0.0.1:" ++ toString m.http_port),
      https_proxy := some ("http://127.0.0.1:" ++ toString m.http_port),
      all_proxy := some ("socks5://127.0.0.1:" ++ toString m.socks_port),
      gnomeMode := "manual",
      gnomeHttpHost := "127.0.0.1", gnomeHttpPort := m.http_port,
      gnomeHttpsHost := "127.0.0.1", gnomeHttpsPort := m.http_port,
      gnomeSocksHost := "127.0.0.1", gnomeSocksPort := m.socks_port }
  ({ m1 with is_enabled := true }, env1, true)

/-- `enable(http_port, socks_port)` on Linux (lines 13–25): record the
ports, then run the platform strategy. -/
def proxyEnable (m : ProxyMgrState) (env : LinuxEnv) (hp sp : Nat) :
    ProxyMgrState × LinuxEnv × Bool :=
  enableLinuxProxy { m with http_port := hp, socks_port := sp } env

/-- `_disable_linux_proxy` (lines 299–325): unconditionally delete the
three environment variables and set the GNOME mode to `none`; the
captured snapshot is not consulted. -/
def disableLinuxProxy (m : ProxyMgrState) (env : LinuxEnv) :
    ProxyMgrState × LinuxEnv × Bool :=
  ({ m with is_enabled := false },
   { env with http_proxy := none, https_proxy := none, all_proxy := none,
              gnomeMode := "none" },
   true)

/-! ### ProcessSupervisor (`src/utils/xray_process.py`) -/

/-- The supervisor's mutable attributes (`__init__`, lines 11–16); the
`Popen` handle is reduced to its pid, and the two path attributes are
kept as opaque strings. -/
structure XrayState where
  process : Option Nat
  config_path : Option String
  xray_path : String
  log_dir : String
  is_running : Bool
deriving DecidableEq, Repr

/-- `XrayProcessManager()` fresh state: no process, no config path,
not running. -/
def XrayState.init (xray_path log_dir : String) : XrayState :=
  { process := none, config_path := none, xray_path := xray_path,
    log_dir := log_dir, is_running := false }

/-- `XrayProcessManager.stop` (lines 107–160).  The OS interaction of
the running branch (signalling, bounded polling, log-handle closing,
the orphan sweep) is summarised by `exc`: whether any of those steps
raised, reaching the handler at line 155.  Both branches end with
`is_running = False` and `process = None`. -/
def XrayState.stop (exc : Bool) (s : XrayState) : XrayState × Bool :=
  if ¬ s.is_running ∨ s.process = none then
    ({ s with is_running := false, process := none }, true)
  else
    ({ s with is_running := false, process := none }, !exc)

/-! ### Example values used in concrete instantiations -/

/-- A decoded shadowsocks profile (the shape `parse_ss_url` emits). -/
def ssProfileEx : Dict :=
  [("type", .str "ss"), ("method", .str "aes-256-gcm"), ("password", .str "p"),
   ("server", .str "1.2.3.4"), ("port", .num 8388), ("tag", .str "t")]

/-- A `base.json` content carrying a DNS section. -/
def dnsBaseEx : Dict := [("dns", .obj [("servers", .arr [.str "8.8.8.8"])])]

/-- The proxy outbound `generate_xray_config` builds for `ssProfileEx`
with an empty base. -/
def ssOutboundEx : Outbound :=
  { tag := "proxy", protocol := some "shadowsocks",
    settings := .obj [("servers", .arr [.obj [("address", .str "1.2.3.4"), ("port", .num 8388),
      ("method", .str "aes-256-gcm"), ("password", .str "p"), ("level", .num 8)]])] }

/-- The full document `generate_xray_config` produces for `ssProfileEx`
with an empty base and `tun_mode = False`. -/
def ssCfgEx : XrayConfig :=
  { log := logSection, inbounds := [httpInbound, socksInbound],
    outbounds := [ssOutboundEx, directOutbound, blockOutbound],
    routing := defaultRouting, dns := none }

/-- A Linux environment where the user already had an external proxy
configured via `http_proxy` before `enable` ran. -/
def corpEnv : LinuxEnv :=
  { http_proxy := some "http://corp.example:3128", https_proxy := none, all_proxy := none,
    gnomeMode := "none", gnomeHttpHost := "", gnomeHttpPort := 0,
    gnomeHttpsHost := "", gnomeHttpsPort := 0, gnomeSocksHost := "", gnomeSocksPort := 0 }

/-- Three probed profiles: one timeout, then 5 ms, then 3 ms. -/
def probedItemsEx : List Dict :=
  [[("delay", Json.null)], [("delay", Json.num 5)], [("delay", Json.num 3)]]

/-- A profile dict carrying the fields required for its `kind`, as the
data model demands: one disjunct per supported kind, requiring the
fields that `generate_xray_config` indexes unconditionally in the
matching branch. -/
def wfProfile (p : Dict) : Prop :=
  (Dict.get p "type" = some (.str "ss") ∧ (Dict.get p "server").isSome = true ∧
    (Dict.get p "port").isSome = true ∧ (Dict.get p "method").isSome = true ∧
    (Dict.get p "password").isSome = true) ∨
  (Dict.get p "type" = some (.str "vmess") ∧ (Dict.get p "server").isSome = true ∧
    (Dict.get p "port").isSome = true ∧ (Dict.get p "uuid").isSome = true) ∨
  (Dict.get p "type" = some (.str "vless") ∧ (Dict.get p "server").isSome = true ∧
    (Dict.get p "port").isSome = true ∧ (Dict.get p "uuid").isSome = true)

/-! ## Theorems -/

/-- C9: `stop()` on a supervisor that has never started a process (or
is otherwise not running) returns success (`True`) and leaves the
supervisor stopped: `is_running` false and no process handle. -/
theorem stop_when_not_running_succeeds :
    (∀ (exc : Bool) (xp ld : String),
      XrayState.stop exc (XrayState.init xp ld) = (XrayState.init xp ld, true)) ∧
    (∀ (exc : Bool) (s : XrayState), s.is_running = false →
      (XrayState.stop exc s).2 = true ∧ (XrayState.stop exc s).1.is_running = false ∧
        (XrayState.stop exc s).1.process = none) := by
  constructor
  · intro exc xp ld
    simp [XrayState.stop, XrayState.init]
  · intro exc s h
    simp [XrayState.stop, h]

/-- C9 witness: the second part applied to a concrete fresh
supervisor. -/
theorem stop_when_not_running_succeeds_witness :
    (XrayState.stop false (XrayState.init "xray" "logs")).2 = true ∧
    (XrayState.stop false (XrayState.init "xray" "logs")).1.is_running = false ∧
    (XrayState.stop false (XrayState.init "xray" "logs")).1.process = none :=
  stop_when_not_running_succeeds.2 false (XrayState.init "xray" "logs") rfl

/-- C5 (code bug): on Linux, `enable` captures a snapshot of the
pre-enable proxy settings (here: an externally configured
`http_proxy`), but the subsequent `disable` ignores the snapshot and
simply clears the variables, so the pre-enable environment is not
restored: the externally configured value is lost. -/
theorem enable_disable_loses_linux_snapshot :
    (proxyEnable {} corpEnv 10809 10808).1.prevLinux =
      some { http_proxy := some "http://corp.example:3128", https_proxy := none,
             all_proxy := none, gnomeMode := "none" } ∧
    (disableLinuxProxy (proxyEnable {} corpEnv 10809 10808).1
        (proxyEnable {} corpEnv 10809 10808).2.1).2.2 = true ∧
    (disableLinuxProxy (proxyEnable {} corpEnv 10809 10808).1
        (proxyEnable {} corpEnv 10809 10808).2.1).2.1.http_proxy = none ∧
    corpEnv.http_proxy = some "http://corp.example:3128" ∧
    (disableLinuxProxy (proxyEnable {} corpEnv 10809 10808).1
        (proxyEnable {} corpEnv 10809 10808).2.1).2.1 ≠ corpEnv := by
  refine ⟨rfl, rfl, rfl, rfl, ?_⟩
  intro h
  exact Option.noConfusion (congrArg LinuxEnv.http_proxy h)

/-- C4 (code bug): with the default `max_threads = 10`, eleven profiles
give `batch_size = max(1, 11 // 10) = 1` and therefore eleven
single-element batches — eleven concurrent threads, exceeding the
ten-worker ceiling the parameter is meant to enforce. -/
theorem eleven_profiles_spawn_eleven_batches :
    (mkBatches (List.range 11) 10).length = 11 ∧ 10 < 11 := by
  constructor
  · rfl
  · decide

/-- C3 counterexample: the same profile and `tunMode` yield different
synthesized documents under two filesystem states (no `base.json`
versus a `base.json` carrying a `dns` section), because
`generate_xray_config` reads `base.json` itself. -/
theorem generate_depends_on_filesystem :
    generate_xray_config ssProfileEx [] false ≠
      generate_xray_config ssProfileEx dnsBaseEx false := by
  intro h
  have h1 : (generate_xray_config ssProfileEx [] false).map XrayConfig.dns = some none := rfl
  have h2 : (generate_xray_config ssProfileEx dnsBaseEx false).map XrayConfig.dns =
      some (some (.obj [("servers", .arr [.str "8.8.8.8"])])) := rfl
  rw [h, h2] at h1
  simp at h1

/-- C3 amended: synthesis is deterministic in (profile, loaded
`base.json` content, `tunMode`) — the filesystem enters only through
that content — and when `base.json` is absent (empty base) the output
carries the built-in defaults for every profile and mode: no DNS
section, the default private-IP routing, the fixed log section. -/
theorem generate_empty_base_defaults :
    ∀ (p : Dict) (tun : Bool) (cfg : XrayConfig),
      generate_xray_config p [] tun = some cfg →
      cfg.dns = none ∧ cfg.routing = defaultRouting ∧ cfg.log = logSection := by
  intro p tun cfg h
  unfold generate_xray_config at h
  cases hm : mkProxyOutbound p [] with
  | none => rw [hm] at h; exact Option.noConfusion h
  | some pb =>
    rw [hm] at h
    simp only [Option.map_some'] at h
    cases h
    exact ⟨rfl, rfl, rfl⟩

/-- C3 witness: the amended statement at a concrete shadowsocks
profile, whose synthesized document is computed explicitly. -/
theorem generate_empty_base_defaults_witness :
    ssCfgEx.dns = none ∧ ssCfgEx.routing = defaultRouting ∧ ssCfgEx.log = logSection :=
  generate_empty_base_defaults ssProfileEx false ssCfgEx rfl

unseal jValue jMembers jElems in
/-- C6 counterexample: the vmess link `vmess://e30` (payload `{}`,
missing both `id` and `port`) is accepted: the profile is constructed
with the defaulted `uuid = ""` and the out-of-range `port = 0`, rather
than rejected with a decode error. -/
theorem vmess_empty_payload_constructs_profile :
    parse_vmess_url "vmess://e30" =
      some [("type", .str "vmess"), ("server", .str ""), ("port", .num 0),
            ("uuid", .str ""), ("alterId", .num 0), ("security", .str "auto"),
            ("network", .str "tcp"), ("tag", .str ""), ("tls", .bool false)] := rfl

/-! ### Dictionary update lemmas (shared) -/

theorem lookup_map_replace_self (k : String) (v : Json) :
    ∀ (l : List (String × Json)),
      List.lookup k (l.map (fun p => if p.1 = k then (k, v) else p)) =
        if (List.lookup k l).isSome then some v else none := by
  intro l
  induction l with
  | nil => simp [List.lookup]
  | cons p t ih =>
    obtain ⟨pk, pv⟩ := p
    by_cases hp : pk = k
    · subst hp
      rw [List.map_cons, if_pos (rfl : (pk, pv).1 = pk)]
      simp [List.lookup]
    · have hk : (k == pk) = false := by
        simp only [beq_eq_false_iff_ne, ne_eq]
        exact fun hh => hp hh.symm
      rw [List.map_cons, if_neg (by exact hp : ¬ (pk, pv).1 = k)]
      simp [List.lookup, hk, ih]
      rw [hk]

theorem lookup_map_replace_ne {k k' : String} (h : k' ≠ k) (v : Json) :
    ∀ (l : List (String × Json)),
      List.lookup k' (l.map (fun p => if p.1 = k then (k, v) else p)) =
        List.lookup k' l := by
  intro l
  induction l with
  | nil => simp
  | cons p t ih =>
    obtain ⟨pk, pv⟩ := p
    by_cases hp : pk = k
    · subst hp
      have hk : (k' == pk) = false := by simp only [beq_eq_false_iff_ne]; exact h
      rw [List.map_cons, if_pos (rfl : (pk, pv).1 = pk)]
      simp [List.lookup, hk, ih]
    · rw [List.map_cons, if_neg (by exact hp : ¬ (pk, pv).1 = k)]
      simp [List.lookup, ih]

theorem Dict.get_set_self (d : Dict) (k : String) (v : Json) :
    Dict.get (Dict.set d k v) k = some v := by
  unfold Dict.set
  by_cases h : Dict.hasKey d k
  · rw [if_pos h]
    unfold Dict.get
    rw [← List.map_reverse, lookup_map_replace_self]
    have hs : (List.lookup k d.reverse).isSome = true := h
    rw [if_pos hs]
  · rw [if_neg h]
    unfold Dict.get
    simp [List.reverse_append, List.lookup]

theorem Dict.get_set_ne (d : Dict) {k k' : String} (v : Json) (h : k' ≠ k) :
    Dict.get (Dict.set d k v) k' = Dict.get d k' := by
  unfold Dict.set
  by_cases hk : Dict.hasKey d k
  · rw [if_pos hk]
    unfold Dict.get
    rw [← List.map_reverse, lookup_map_replace_ne h]
  · rw [if_neg hk]
    unfold Dict.get
    have hb : (k' == k) = false := by simp only [beq_eq_false_iff_ne]; exact h
    simp [List.reverse_append, List.lookup, hb]

theorem Dict.hasKey_set_self (d : Dict) (k : String) (v : Json) :
    Dict.hasKey (Dict.set d k v) k = true := by
  unfold Dict.hasKey
  rw [Dict.get_set_self]
  rfl

theorem Dict.set_set_self (d : Dict) (k : String) (v v' : Json) :
    Dict.set (Dict.set d k v) k v' = Dict.set d k v' := by
  have h2 := Dict.hasKey_set_self d k v
  by_cases h : Dict.hasKey d k
  · have hset : Dict.set d k v = d.map (fun p => if p.1 = k then (k, v) else p) := by
      unfold Dict.set
      rw [if_pos h]
    rw [hset] at h2
    calc Dict.set (Dict.set d k v) k v'
        = Dict.set (d.map (fun p => if p.1 = k then (k, v) else p)) k v' := by rw [hset]
      _ = (d.map (fun p => if p.1 = k then (k, v) else p)).map
            (fun p => if p.1 = k then (k, v') else p) := by
          unfold Dict.set
          rw [if_pos h2]
      _ = d.map (fun p => if p.1 = k then (k, v') else p) := by
          rw [List.map_map]
          apply List.map_congr_left
          intro p _
          by_cases hp : p.1 = k <;> simp [Function.comp, hp]
      _ = Dict.set d k v' := by
          unfold Dict.set
          rw [if_pos h]
  · have hset : Dict.set d k v = d ++ [(k, v)] := by
      unfold Dict.set
      rw [if_neg h]
    rw [hset] at h2
    have hnone : List.lookup k d.reverse = none := by
      cases hc : List.lookup k d.reverse with
      | none => rfl
      | some x =>
        exfalso
        apply h
        unfold Dict.hasKey Dict.get
        rw [hc]
        rfl
    have hmem : ∀ p ∈ d, p.1 ≠ k := by
      intro p hp hfk
      rw [List.lookup_eq_none_iff] at hnone
      have hne := hnone p (List.mem_reverse.mpr hp)
      simp only [bne_iff_ne, ne_eq] at hne
      exact hne hfk.symm
    have hmap : d.map (fun p => if p.1 = k then (k, v') else p) = d := by
      conv_rhs => rw [← List.map_id d]
      apply List.map_congr_left
      intro p hp
      simp [hmem p hp]
    calc Dict.set (Dict.set d k v) k v'
        = (d ++ [(k, v)]).map (fun p => if p.1 = k then (k, v') else p) := by
          rw [hset]
          unfold Dict.set
          rw [if_pos h2]
      _ = d ++ [(k, v')] := by
          rw [List.map_append, hmap]
          simp
      _ = Dict.set d k v' := by
          unfold Dict.set
          rw [if_neg h]

/-- C6 amended: the ss and vless parsers do reject missing separators,
but the vmess parser substitutes defaults for missing required fields
instead of rejecting the link: whenever the payload decodes to a JSON
object with no `port` and no `id` member, a profile is still
constructed, carrying `port = 0` (outside 1–65535) and `uuid = ""`. -/
theorem vmess_missing_fields_defaulted :
    ∀ (url s : String) (kvs : Dict) (d : Dict),
      pyStartsWith url "vmess://" = true →
      b64ToString (String.mk (repadStripped (url.data.drop 8))) = some s →
      parseJson s = some (.obj kvs) →
      Dict.get kvs "port" = none →
      Dict.get kvs "id" = none →
      parse_vmess_url url = some d →
      Dict.get d "port" = some (.num 0) ∧ Dict.get d "uuid" = some (.str "") := by
  intro url s kvs d hpre hb64 hjson hport hid hres
  unfold parse_vmess_url parse_vmess_urlE at hres
  simp [hpre, hb64, hjson, Dict.getD, hport, hid] at hres
  have hp0 : pyInt (Json.num 0) = some 0 := by norm_num [pyInt]
  rw [hp0] at hres
  cases haid : pyInt ((Dict.get kvs "aid").getD (Json.num 0)) with
  | none =>
    rw [haid] at hres
    simp [Except.toOption] at hres
  | some aid =>
    rw [haid] at hres
    simp [Except.toOption] at hres
    subst hres
    constructor
    · split_ifs <;>
        (repeat rw [Dict.get_set_ne _ _ (by decide)]) <;>
        simp [Dict.get, List.lookup]
    · split_ifs <;>
        (repeat rw [Dict.get_set_ne _ _ (by decide)]) <;>
        simp [Dict.get, List.lookup]

unseal jValue jMembers jElems in
/-- C6 witness: the amended statement instantiated at `vmess://e30`,
whose payload is the empty JSON object. -/
theorem vmess_missing_fields_defaulted_witness :
    Dict.get [("type", .str "vmess"), ("server", .str ""), ("port", .num 0),
      ("uuid", .str ""), ("alterId", .num 0), ("security", .str "auto"),
      ("network", .str "tcp"), ("tag", .str ""), ("tls", .bool false)] "port"
        = some (.num 0) ∧
    Dict.get [("type", .str "vmess"), ("server", .str ""), ("port", .num 0),
      ("uuid", .str ""), ("alterId", .num 0), ("security", .str "auto"),
      ("network", .str "tcp"), ("tag", .str ""), ("tls", .bool false)] "uuid"
        = some (.str "") :=
  vmess_missing_fields_defaulted "vmess://e30" "{}" [] _ rfl rfl rfl rfl rfl rfl

/-- C7: the modern-ss / vmess repadding appends exactly
`(4 - L % 4) % 4` padding characters to the `'='`-stripped payload of
length `L`; the legacy guarded form (`pad = 4 - L % 4`, applied only
when `< 4`) agrees with the same formula; the repadded payload always
has length ≡ 0 (mod 4); and when base64/UTF-8 decoding of the repadded
payload fails, each parser returns the corresponding error value
rather than raising an uncontrolled fault. -/
theorem repad_formula_and_decode_failures :
    (∀ l : List Char, repadStripped l =
        rstripEq l ++ List.replicate ((4 - (rstripEq l).length % 4) % 4) '=') ∧
    (∀ l : List Char, repadLegacy l =
        l ++ List.replicate ((4 - l.length % 4) % 4) '=') ∧
    (∀ l : List Char,
        (repadStripped l).length % 4 = 0 ∧ (repadLegacy l).length % 4 = 0) ∧
    (∀ url : String, pyStartsWith url "vmess://" = true →
        b64ToString (String.mk (repadStripped (url.data.drop 8))) = none →
        parse_vmess_urlE url = .error .vmessB64) ∧
    (∀ url : String, pyStartsWith url "ss://" = true →
        splitOnce '#' (url.data.drop 5) = none →
        splitOnce '@' (url.data.drop 5) = none →
        b64ToString (String.mk (repadLegacy (url.data.drop 5))) = none →
        parse_ss_urlE url = .error .ssLegacyB64) ∧
    (∀ (url : String) (userInfoRaw serverInfo : List Char),
        pyStartsWith url "ss://" = true →
        splitOnce '#' (url.data.drop 5) = none →
        splitOnce '@' (url.data.drop 5) = some (userInfoRaw, serverInfo) →
        userInfoRaw.contains ':' = false →
        b64ToString (String.mk (repadStripped userInfoRaw)) = none →
        parse_ss_urlE url = .error .ssUserInfoB64) := by
  have hleg : ∀ l : List Char, repadLegacy l =
      l ++ List.replicate ((4 - l.length % 4) % 4) '=' := by
    intro l
    unfold repadLegacy
    by_cases h : 4 - l.length % 4 < 4
    · rw [if_pos h, Nat.mod_eq_of_lt h]
    · rw [if_neg h]
      have hr : l.length % 4 < 4 := Nat.mod_lt _ (by norm_num)
      have h0 : l.length % 4 = 0 := by omega
      rw [h0]
      simp
  refine ⟨fun l => rfl, hleg, ?_, ?_, ?_, ?_⟩
  · intro l
    constructor
    · have hr : (rstripEq l).length % 4 < 4 := Nat.mod_lt _ (by norm_num)
      simp only [repadStripped, List.length_append, List.length_replicate]
      omega
    · rw [hleg]
      have hr : l.length % 4 < 4 := Nat.mod_lt _ (by norm_num)
      simp only [List.length_append, List.length_replicate]
      omega
  · intro url hpre hb64
    unfold parse_vmess_urlE
    simp [hpre, hb64]
  · intro url hpre htag hat hb64
    unfold parse_ss_urlE
    simp [hpre, htag, hat, hb64]
  · intro url userInfoRaw serverInfo hpre htag hat hcolon hb64
    unfold parse_ss_urlE
    have hmem : ¬ (':' ∈ userInfoRaw) := by
      intro hm
      have htrue : userInfoRaw.contains ':' = true := by
        rw [List.contains_iff_exists_mem_beq]
        exact ⟨':', hm, by simp⟩
      rw [htrue] at hcolon
      exact Bool.noConfusion hcolon
    simp [hpre, htag, hat, hmem, hb64]

/-- C7 witness: the three failure conjuncts at concrete links whose
payloads are invalid base64 (one data character). -/
theorem repad_formula_and_decode_failures_witness :
    parse_vmess_urlE "vmess://a" = .error .vmessB64 ∧
    parse_ss_urlE "ss://a" = .error .ssLegacyB64 ∧
    parse_ss_urlE "ss://b@h:1" = .error .ssUserInfoB64 :=
  ⟨repad_formula_and_decode_failures.2.2.2.1 "vmess://a" rfl rfl,
   repad_formula_and_decode_failures.2.2.2.2.1 "ss://a" rfl rfl rfl rfl,
   repad_formula_and_decode_failures.2.2.2.2.2 "ss://b@h:1" ['b'] ['h', ':', '1']
     rfl rfl rfl rfl rfl⟩

/-- C8: sorting by the caller's key (null latency ↦ +∞) produces a
permutation of the input in which the key is monotone along positions:
numeric latencies appear in non-decreasing order, and once a
null-latency (⊤-key) profile appears, everything after it is also
null-latency — i.e. every null sorts after every numeric one. -/
theorem sort_by_delay_ranking :
    ∀ (items : List Dict),
      List.Perm (sortByDelay items) items ∧
      (∀ (i j : Nat), i < j → j < (sortByDelay items).length →
        delayKey ((sortByDelay items).getD i []) ≤
          delayKey ((sortByDelay items).getD j [])) ∧
      (∀ (i j : Nat), i < j → j < (sortByDelay items).length →
        delayKey ((sortByDelay items).getD i []) = ⊤ →
        delayKey ((sortByDelay items).getD j []) = ⊤) := by
  intro items
  have htrans : ∀ (a b c : Dict),
      decide (delayKey a ≤ delayKey b) → decide (delayKey b ≤ delayKey c) →
      decide (delayKey a ≤ delayKey c) := by
    intro a b c hab hbc
    simp only [decide_eq_true_eq] at hab hbc ⊢
    exact le_trans hab hbc
  have htotal : ∀ (a b : Dict),
      decide (delayKey a ≤ delayKey b) || decide (delayKey b ≤ delayKey a) := by
    intro a b
    simpa using le_total (delayKey a) (delayKey b)
  have hpair : (sortByDelay items).Pairwise (fun a b => delayKey a ≤ delayKey b) := by
    have hs := List.sorted_mergeSort htrans htotal items
    exact hs.imp (fun h => by simpa using h)
  have hmono : ∀ (i j : Nat), i < j → j < (sortByDelay items).length →
      delayKey ((sortByDelay items).getD i []) ≤
        delayKey ((sortByDelay items).getD j []) := by
    intro i j hij hj
    have hi : i < (sortByDelay items).length := lt_trans hij hj
    have hrel := List.pairwise_iff_getElem.mp hpair i j hi hj hij
    simpa [List.getD_eq_getElem?_getD, List.getElem?_eq_getElem, hi, hj] using hrel
  refine ⟨List.mergeSort_perm items _, hmono, ?_⟩
  intro i j hij hj htop
  exact top_le_iff.mp (htop ▸ hmono i j hij hj)

/-- C8 witness: the monotonicity part applied to a concrete probed
list (timeout, 5 ms, 3 ms) at positions 0 and 1. -/
theorem sort_by_delay_ranking_witness :
    delayKey ((sortByDelay probedItemsEx).getD 0 []) ≤
      delayKey ((sortByDelay probedItemsEx).getD 1 []) :=
  (sort_by_delay_ranking probedItemsEx).2.1 0 1 (by norm_num)
    (by
      show 1 < (List.mergeSort probedItemsEx _).length
      rw [(List.mergeSort_perm probedItemsEx _).length_eq]
      norm_num [probedItemsEx])

/-- C2 counterexample: for the malformed link `ss://a@h:1` (invalid
base64 user info in the modern form) the decoder fails deliberately
silently — the failure site prints nothing and the caller receives a
bare `None` — so this malformed link does not produce an error that
identifies which component failed. -/
theorem ss_silent_base64_failure :
    parse_ss_urlE "ss://a@h:1" = .error .ssUserInfoB64 ∧
    printedMessage .ssUserInfoB64 = none ∧
    parse_ss_url "ss://a@h:1" = none :=
  ⟨rfl, rfl, rfl⟩

/-- C2 amended: every malformed component (missing `@`, missing `:` in
host:port, non-integer port, invalid base64, invalid JSON) makes the
decoder return `None` from the corresponding failure site — never a
partially populated profile and never an uncontrolled fault — and most
sites print a component-identifying diagnostic, but the invalid-base64
site of the modern shadowsocks form is silent, and all vless failures
collapse to one generic handler. -/
theorem decode_malformed_components :
    (∀ url : String, pyStartsWith url "vless://" = true →
        splitOnce '#' (url.data.drop 8) = none →
        splitOnce '@' (url.data.drop 8) = none →
        parse_vless_urlE url = .error .vlessError) ∧
    (∀ (url : String) (u s m pw : List Char), pyStartsWith url "ss://" = true →
        splitOnce '#' (url.data.drop 5) = none →
        splitOnce '@' (url.data.drop 5) = some (u, s) →
        u.contains ':' = true →
        splitOnce ':' u = some (m, pw) →
        splitOnce ':' s = none →
        parse_ss_urlE url = .error .ssMissingColonHostPort) ∧
    (∀ (url : String) (u s m pw host portStr : List Char),
        pyStartsWith url "ss://" = true →
        splitOnce '#' (url.data.drop 5) = none →
        splitOnce '@' (url.data.drop 5) = some (u, s) →
        u.contains ':' = true →
        splitOnce ':' u = some (m, pw) →
        splitOnce ':' s = some (host, portStr) →
        pyIntOfString (String.mk portStr) = none →
        parse_ss_urlE url = .error .ssBadPort) ∧
    (∀ (url : String) (u s : List Char), pyStartsWith url "ss://" = true →
        splitOnce '#' (url.data.drop 5) = none →
        splitOnce '@' (url.data.drop 5) = some (u, s) →
        u.contains ':' = false →
        b64ToString (String.mk (repadStripped u)) = none →
        parse_ss_urlE url = .error .ssUserInfoB64 ∧
          printedMessage .ssUserInfoB64 = none) ∧
    (∀ url : String, pyStartsWith url "vmess://" = true →
        b64ToString (String.mk (repadStripped (url.data.drop 8))) = none →
        parse_vmess_urlE url = .error .vmessB64 ∧
          printedMessage .vmessB64 ≠ none) ∧
    (∀ (url decoded : String), pyStartsWith url "vmess://" = true →
        b64ToString (String.mk (repadStripped (url.data.drop 8))) = some decoded →
        parseJson decoded = none →
        parse_vmess_urlE url = .error .vmessJson) ∧
    (∀ (url : String) (e : DecodeError), parse_proxy_urlE url = .error e →
        parse_proxy_url url = none) := by
  have hmemT : ∀ (u : List Char), u.contains ':' = true → ':' ∈ u := by
    intro u hc
    rw [List.contains_iff_exists_mem_beq] at hc
    obtain ⟨x, hx, hbx⟩ := hc
    have : ':' = x := by simpa [beq_iff_eq] using hbx
    rw [this]
    exact hx
  have hmemF : ∀ (u : List Char), u.contains ':' = false → ¬ (':' ∈ u) := by
    intro u hc hm
    have htrue : u.contains ':' = true := by
      rw [List.contains_iff_exists_mem_beq]
      exact ⟨':', hm, by simp⟩
    rw [htrue] at hc
    exact Bool.noConfusion hc
  refine ⟨?_, ?_, ?_, ?_, ?_, ?_, ?_⟩
  · intro url hpre htag hat
    unfold parse_vless_urlE
    simp [hpre, htag, hat]
  · intro url u s m pw hpre htag hat hc hmp hhp
    unfold parse_ss_urlE
    simp [hpre, htag, hat, hmemT u hc, hmp, hhp]
  · intro url u s m pw host portStr hpre htag hat hc hmp hhp hint
    unfold parse_ss_urlE mkSsDict
    simp [hpre, htag, hat, hmemT u hc, hmp, hhp, hint]
  · intro url u s hpre htag hat hc hb64
    refine ⟨?_, rfl⟩
    unfold parse_ss_urlE
    simp [hpre, htag, hat, hmemF u hc, hb64]
  · intro url hpre hb64
    refine ⟨?_, by simp [printedMessage]⟩
    unfold parse_vmess_urlE
    simp [hpre, hb64]
  · intro url decoded hpre hb64 hjson
    unfold parse_vmess_urlE
    simp [hpre, hb64, hjson]
  · intro url e h
    unfold parse_proxy_url
    rw [h]
    rfl

unseal jValue jMembers jElems in
/-- C2 witness: the amended conjuncts instantiated at concrete
malformed links of each class. -/
theorem decode_malformed_components_witness :
    parse_vless_urlE "vless://x:1" = .error .vlessError ∧
    parse_ss_urlE "ss://m:p@host" = .error .ssMissingColonHostPort ∧
    parse_ss_urlE "ss://m:p@h:x" = .error .ssBadPort ∧
    (parse_ss_urlE "ss://c@h:1" = .error .ssUserInfoB64 ∧
      printedMessage .ssUserInfoB64 = none) ∧
    (parse_vmess_urlE "vmess://c" = .error .vmessB64 ∧
      printedMessage .vmessB64 ≠ none) ∧
    parse_vmess_urlE "vmess://YQ" = .error .vmessJson ∧
    parse_proxy_url "http://x" = none :=
  ⟨decode_malformed_components.1 "vless://x:1" rfl rfl rfl,
   decode_malformed_components.2.1 "ss://m:p@host" ['m', ':', 'p'] ['h', 'o', 's', 't']
     ['m'] ['p'] rfl rfl rfl rfl rfl rfl,
   decode_malformed_components.2.2.1 "ss://m:p@h:x" ['m', ':', 'p'] ['h', ':', 'x']
     ['m'] ['p'] ['h'] ['x'] rfl rfl rfl rfl rfl rfl rfl,
   decode_malformed_components.2.2.2.1 "ss://c@h:1" ['c'] ['h', ':', '1']
     rfl rfl rfl rfl rfl,
   decode_malformed_components.2.2.2.2.1 "vmess://c" rfl rfl,
   decode_malformed_components.2.2.2.2.2.1 "vmess://YQ" "a" rfl rfl rfl,
   decode_malformed_components.2.2.2.2.2.2 "http://x" .wrongScheme rfl⟩

/-- Helper: a well-formed profile always yields a proxy outbound, and
that outbound is tagged `"proxy"`. -/
theorem mkProxyOutbound_of_wf :
    ∀ (p base : Dict), wfProfile p →
      ∃ pb, mkProxyOutbound p base = some pb ∧ pb.tag = "proxy" := by
  intro p base hwf
  rcases hwf with ⟨hty, hs, hp, hm, hpw⟩ | ⟨hty, hs, hp, hu⟩ | ⟨hty, hs, hp, hu⟩
  · obtain ⟨sv, hsv⟩ := Option.isSome_iff_exists.mp hs
    obtain ⟨pv, hpv⟩ := Option.isSome_iff_exists.mp hp
    obtain ⟨mv, hmv⟩ := Option.isSome_iff_exists.mp hm
    obtain ⟨wv, hwv⟩ := Option.isSome_iff_exists.mp hpw
    unfold mkProxyOutbound
    simp [hty, hsv, hpv, hmv, hwv, Json.isStr]
  · obtain ⟨sv, hsv⟩ := Option.isSome_iff_exists.mp hs
    obtain ⟨pv, hpv⟩ := Option.isSome_iff_exists.mp hp
    obtain ⟨uv, huv⟩ := Option.isSome_iff_exists.mp hu
    unfold mkProxyOutbound
    simp [hty, hsv, hpv, huv, Json.isStr]
  · obtain ⟨sv, hsv⟩ := Option.isSome_iff_exists.mp hs
    obtain ⟨pv, hpv⟩ := Option.isSome_iff_exists.mp hp
    obtain ⟨uv, huv⟩ := Option.isSome_iff_exists.mp hu
    unfold mkProxyOutbound
    simp [hty, hsv, hpv, huv, Json.isStr]

/-- C1: for every profile of one of the three supported kinds (with its
required fields), synthesis succeeds and produces exactly three
outbounds in order [proxy, direct, block] — the proxy one first and
tagged `"proxy"`, then the fixed `freedom` direct outbound and the
fixed `blackhole` block outbound, both constants independent of the
profile — and exactly two inbounds (HTTP then SOCKS) without TUN mode,
exactly one with it. -/
theorem synthesize_fixed_outbounds_inbounds :
    ∀ (p base : Dict) (tun : Bool), wfProfile p →
      ∃ cfg, generate_xray_config p base tun = some cfg ∧
        cfg.outbounds.length = 3 ∧
        cfg.outbounds.map Outbound.tag = ["proxy", "direct", "block"] ∧
        cfg.outbounds[1]? = some directOutbound ∧
        cfg.outbounds[2]? = some blockOutbound ∧
        directOutbound.protocol = some "freedom" ∧
        blockOutbound.protocol = some "blackhole" ∧
        cfg.inbounds = (if tun then [tunInbound] else [httpInbound, socksInbound]) ∧
        cfg.inbounds.length = (if tun then 1 else 2) ∧
        httpInbound.get "protocol" = some (.str "http") ∧
        socksInbound.get "protocol" = some (.str "socks") := by
  intro p base tun hwf
  obtain ⟨pb, hpb, htag⟩ := mkProxyOutbound_of_wf p base hwf
  have hgen : generate_xray_config p base tun =
      some { log := logSection,
             inbounds := if tun then [tunInbound] else [httpInbound, socksInbound],
             outbounds := [pb, directOutbound, blockOutbound],
             routing := routingSection base,
             dns := Dict.get base "dns" } := by
    unfold generate_xray_config
    rw [hpb]
    rfl
  refine ⟨_, hgen, rfl, ?_, rfl, rfl, rfl, rfl, rfl, ?_, rfl, rfl⟩
  · simp [htag, directOutbound, blockOutbound]
  · cases tun <;> rfl

/-- C1 witness: the statement instantiated at a concrete shadowsocks
profile with an empty base and both TUN modes off. -/
theorem synthesize_fixed_outbounds_inbounds_witness :
    ∃ cfg, generate_xray_config ssProfileEx [] false = some cfg ∧
      cfg.outbounds.length = 3 ∧
      cfg.outbounds.map Outbound.tag = ["proxy", "direct", "block"] ∧
      cfg.outbounds[1]? = some directOutbound ∧
      cfg.outbounds[2]? = some blockOutbound ∧
      directOutbound.protocol = some "freedom" ∧
      blockOutbound.protocol = some "blackhole" ∧
      cfg.inbounds = (if false then [tunInbound] else [httpInbound, socksInbound]) ∧
      cfg.inbounds.length = (if false then 1 else 2) ∧
      httpInbound.get "protocol" = some (.str "http") ∧
      socksInbound.get "protocol" = some (.str "socks") :=
  synthesize_fixed_outbounds_inbounds ssProfileEx [] false
    (Or.inl ⟨rfl, rfl, rfl, rfl, rfl⟩)

/-- Helper: `measure_config_delay` always returns its argument with
just the `delay` key set. -/
theorem measure_config_delay_shape (o : PingOracle) (c : Dict) :
    ∃ v, measure_config_delay o c = Dict.set c "delay" v := by
  unfold measure_config_delay
  dsimp only
  split_ifs with h
  · exact ⟨.null, rfl⟩
  · cases hpi : pyInt (Dict.getD c "port" (.num 0)) with
    | none => exact ⟨.null, rfl⟩
    | some pn =>
      dsimp only
      cases ho : o (Dict.getD c "server" .null) pn with
      | none => exact ⟨.null, rfl⟩
      | some d => exact ⟨.num d, rfl⟩

/-- Helper: measuring a dict whose `delay` was already set measures the
underlying dict (the `delay` key is not read, only written). -/
theorem measure_config_delay_set_delay (o : PingOracle) (c : Dict) (v : Json) :
    measure_config_delay o (Dict.set c "delay" v) = measure_config_delay o c := by
  unfold measure_config_delay
  have hs : Dict.getD (Dict.set c "delay" v) "server" .null = Dict.getD c "server" .null := by
    unfold Dict.getD
    rw [Dict.get_set_ne _ _ (by decide)]
  have hp : Dict.getD (Dict.set c "delay" v) "port" (.num 0) =
      Dict.getD c "port" (.num 0) := by
    unfold Dict.getD
    rw [Dict.get_set_ne _ _ (by decide)]
  simp only [measure_config_delay, hs, hp]
  split_ifs with h
  · exact Dict.set_set_self c "delay" v .null
  · cases hpi : pyInt (Dict.getD c "port" (.num 0)) with
    | none => simp [hpi, Dict.set_set_self]
    | some pn =>
      cases ho : o (Dict.getD c "server" .null) pn with
      | none => simp [hpi, ho, Dict.set_set_self]
      | some d => simp [hpi, ho, Dict.set_set_self]

/-- Helper: `measure_config_delay` is idempotent. -/
theorem measure_config_delay_idem (o : PingOracle) (c : Dict) :
    measure_config_delay o (measure_config_delay o c) = measure_config_delay o c := by
  obtain ⟨v, hv⟩ := measure_config_delay_shape o c
  calc measure_config_delay o (measure_config_delay o c)
      = measure_config_delay o (Dict.set c "delay" v) := by rw [hv]
    _ = measure_config_delay o c := measure_config_delay_set_delay o c v

/-- Helper: the fueled slicing covers the whole list. -/
theorem chunksAux_join (bs : Nat) :
    ∀ (fuel : Nat) (l : List α), l.length ≤ fuel → (chunksAux bs fuel l).flatten = l := by
  intro fuel
  induction fuel with
  | zero =>
    intro l hl
    cases l with
    | nil => simp [chunksAux]
    | cons x xs => simp at hl
  | succ f ih =>
    intro l hl
    cases l with
    | nil => simp [chunksAux]
    | cons x xs =>
      rw [chunksAux, List.flatten_cons,
        ih _ (by simp only [List.length_drop]; simp at hl ⊢; omega)]
      exact List.take_append_drop _ _

/-- Helper: the batch partition covers the input list exactly. -/
theorem mkBatches_join (l : List α) (m : Nat) : (mkBatches l m).flatten = l :=
  chunksAux_join _ _ _ le_rfl

/-- Helper: folding a worker body over the batches is folding the step
over the concatenation of the batches. -/
theorem foldl_batches_join (f : List Dict → Nat → List Dict) :
    ∀ (L : List (List Nat)) (st : List Dict),
      L.foldl (fun s b => b.foldl f s) st = L.flatten.foldl f st := by
  intro L
  induction L with
  | nil => intro st; rfl
  | cons b L ih =>
    intro st
    rw [List.foldl_cons, List.flatten_cons, List.foldl_append, ih]

/-- Helper: after folding the measuring step over a reference list,
each referenced heap cell holds its measured dict (idempotence absorbs
duplicate references), and unreferenced cells are untouched. -/
theorem processRefs_getD (o : PingOracle) :
    ∀ (refs : List Nat) (st : List Dict) (i : Nat), i < st.length →
      ((refs.foldl (fun st r => st.set r (measure_config_delay o (st.getD r []))) st).getD i []) =
        (if i ∈ refs then measure_config_delay o (st.getD i []) else st.getD i []) := by
  have hgdself : ∀ (st : List Dict) (i : Nat) (m : Dict), i < st.length →
      (st.set i m).getD i [] = m := by
    intro st i m hi
    rw [List.getD_eq_getElem?_getD, List.getElem?_set_self hi]
    rfl
  have hgdne : ∀ (st : List Dict) (i r : Nat) (m : Dict), r ≠ i →
      (st.set r m).getD i [] = st.getD i [] := by
    intro st i r m hne
    rw [List.getD_eq_getElem?_getD, List.getElem?_set_ne hne, ← List.getD_eq_getElem?_getD]
  intro refs
  induction refs with
  | nil =>
    intro st i hi
    simp
  | cons r rs ih =>
    intro st i hi
    rw [List.foldl_cons]
    have hlen : i < (st.set r (measure_config_delay o (st.getD r []))).length := by
      rw [List.length_set]
      exact hi
    rw [ih _ i hlen]
    by_cases hir : i = r
    · subst hir
      rw [hgdself st i _ hi]
      by_cases hmem : i ∈ rs
      · rw [if_pos hmem, if_pos (List.mem_cons_self i rs), measure_config_delay_idem]
      · rw [if_neg hmem, if_pos (List.mem_cons_self i rs)]
    · have hne := hgdne st i r (measure_config_delay o (st.getD r []))
        (fun hh => hir hh.symm)
      rw [hne]
      by_cases hmem : i ∈ rs
      · rw [if_pos hmem, if_pos (List.mem_cons_of_mem r hmem)]
      · rw [if_neg hmem, if_neg (by simp [List.mem_cons, hir, hmem])]

/-- C10: `measure_configs_delay` returns (a shallow copy of) the very
same reference list it was given — same length, same profile references
in order — and annotates every referenced profile in the heap in place
by setting its `delay` field, so a caller holding the original list
observes the annotations through its own references. -/
theorem probe_returns_same_refs_and_annotates :
    ∀ (o : PingOracle) (refs : List Nat) (store : List Dict),
      (measure_configs_delay o refs store).1 = refs ∧
      (measure_configs_delay o refs store).1.length = refs.length ∧
      (∀ i, i ∈ refs → i < store.length →
        ((measure_configs_delay o refs store).2.getD i []) =
          measure_config_delay o (store.getD i [])) ∧
      (∀ i, i ∈ refs → i < store.length →
        Dict.get ((measure_configs_delay o refs store).2.getD i []) "delay" ≠ none) := by
  intro o refs store
  by_cases h : refs.isEmpty
  · have hnil : refs = [] := List.isEmpty_iff.mp h
    subst hnil
    refine ⟨rfl, rfl, ?_, ?_⟩ <;> intro i hi <;> exact absurd hi (List.not_mem_nil i)
  · have hstep : (measure_configs_delay o refs store) =
        (refs, (mkBatches refs 10).foldl (processBatch o) store) := by
      unfold measure_configs_delay
      rw [if_neg h]
    have hheap : (measure_configs_delay o refs store).2 =
        refs.foldl (fun st r => st.set r (measure_config_delay o (st.getD r []))) store := by
      rw [hstep]
      show (mkBatches refs 10).foldl (processBatch o) store = _
      unfold processBatch
      rw [foldl_batches_join, mkBatches_join]
    refine ⟨by rw [hstep], by rw [hstep], ?_, ?_⟩
    · intro i hi hlen
      rw [hheap, processRefs_getD o refs store i hlen, if_pos hi]
    · intro i hi hlen
      rw [hheap, processRefs_getD o refs store i hlen, if_pos hi]
      obtain ⟨v, hv⟩ := measure_config_delay_shape o (store.getD i [])
      rw [hv, Dict.get_set_self]
      exact fun hh => Option.noConfusion hh

/-- C10 witness: a concrete two-profile heap probed through references
`[0, 1]` with a constant reachability oracle. -/
theorem probe_returns_same_refs_and_annotates_witness :
    (measure_configs_delay (fun _ _ => some 7) [0, 1] [ssProfileEx, ssProfileEx]).1 = [0, 1] ∧
    ((measure_configs_delay (fun _ _ => some 7) [0, 1] [ssProfileEx, ssProfileEx]).2.getD 0 []) =
      measure_config_delay (fun _ _ => some 7) ([ssProfileEx, ssProfileEx].getD 0 []) :=
  ⟨(probe_returns_same_refs_and_annotates (fun _ _ => some 7) [0, 1]
      [ssProfileEx, ssProfileEx]).1,
   (probe_returns_same_refs_and_annotates (fun _ _ => some 7) [0, 1]
      [ssProfileEx, ssProfileEx]).2.2.1 0 (by simp) (by simp)⟩

end ProxyCloud
